import Mathlib

/-!
Verification development for the typed facade layer of a vector-search
library (`HighLevel` in `src/rust/highlevel.rs`, batch insertion in
`src/rust/batch_insert.rs`, metric types in `src/rust/metric.rs`, and the
half-precision adapter in `src/rust/f16_precision.rs`).

The native engine handle (`Index`) lives outside of the facade layer and is
consumed only through its call interface; its operations are modelled from
the specification (each such definition's doc comment starts with
`Modelled from the spec:`). The facade functions themselves are embedded
from the source.

Distances are `f32` in the source; the model uses `Int` for distances, as
the facade never computes with them, it only transports and orders them.
Custom-metric closures cross the foreign-call boundary as opaque
(function-pointer, context) pairs; the model represents an installed
custom metric by an opaque identifier (`Nat`).
-/

namespace USearch

/-- 64-bit caller-chosen vector identifier (`Key` in the source). -/
abbrev Key := Nat

/-- Builtin metric kinds of the engine, as named by the
`define_metric_type!` expansions in `src/rust/metric.rs` plus the
`Unknown` default of the `MetricType` trait. -/
inductive MetricKind where
  | Unknown
  | IP
  | L2sq
  | Cos
  | Pearson
  | Haversine
  | Divergence
  | Hamming
  | Tanimoto
  | Sorensen
deriving DecidableEq

/-- Scalar quantization kinds reported by `quant_type()` implementations. -/
inductive ScalarKind where
  | F64
  | F32
  | F16
  | BF16
  | I8
  | B1
deriving DecidableEq

/-- Errors surfaced by the modelled engine operations. The source wraps all
native failures in one opaque exception type; the model distinguishes the
two conditions the specification names for `add`. -/
inductive IndexError where
  | dimensionMismatch
  | duplicateKey
deriving DecidableEq

/-- The `IndexOptions` value struct, as filled in by `HighLevel::new` and
`HighLevel::try_default` in `src/rust/highlevel.rs`. -/
structure IndexOptions where
  dimensions : Nat
  metric : MetricKind
  quantization : ScalarKind
  connectivity : Nat
  expansion_add : Nat
  expansion_search : Nat
  multi : Bool
deriving DecidableEq

/-- Modelled from the spec: the engine's active comparison function —
either a builtin metric kind or an installed custom-metric trampoline
(identified opaquely). The engine dispatches through exactly one of the
two at a time; installing one replaces the other. -/
inductive ActiveMetric where
  | builtin : MetricKind → ActiveMetric
  | custom : Nat → ActiveMetric
deriving DecidableEq

/-- Modelled from the spec: the opaque native engine handle (`Index`).
It stores the construction options, the multiset of (key, vector) entries
in insertion order, the reserved capacity and the active comparison
function. -/
structure IndexState (T : Type) where
  options : IndexOptions
  entries : List (Key × List T)
  capacity : Nat
  metric : ActiveMetric
deriving DecidableEq

/-- Modelled from the spec: `Index::new(options)` constructs an empty
engine handle bound to the options' builtin metric kind, with no custom
metric installed. -/
def Index.new (T : Type) (options : IndexOptions) : IndexState T :=
  { options := options
    entries := []
    capacity := 0
    metric := .builtin options.metric }

/-- Modelled from the spec: the current number of vectors in the index. -/
def IndexState.size {T : Type} (s : IndexState T) : Nat :=
  s.entries.length

/-- Modelled from the spec: whether the index contains a vector with the
given key. -/
def IndexState.contains {T : Type} (s : IndexState T) (key : Key) : Bool :=
  s.entries.any (fun e => e.1 == key)

/-- Modelled from the spec: the number of vectors stored under a key. -/
def IndexState.countKey {T : Type} (s : IndexState T) (key : Key) : Nat :=
  (s.entries.filter (fun e => e.1 == key)).length

/-- Modelled from the spec: `reserve(n)` pre-grows storage to the desired
total capacity `n`, including the current size; it never shrinks. -/
def IndexState.reserve {T : Type} (s : IndexState T) (n : Nat) : IndexState T :=
  { s with capacity := max s.capacity n }

/-- Modelled from the spec: `add(key, vector)` requires the vector length
to equal the configured dimension, rejects a duplicate key when `multi` is
disabled, and otherwise appends the entry. (Native allocation failure is
nondeterministic and not modelled.) -/
def IndexState.add {T : Type} (s : IndexState T) (key : Key) (vector : List T) :
    Except IndexError (IndexState T) :=
  if vector.length ≠ s.options.dimensions then
    .error .dimensionMismatch
  else if s.contains key && !s.options.multi then
    .error .duplicateKey
  else
    .ok { s with entries := s.entries ++ [(key, vector)] }

/-- Modelled from the spec: the first vector stored under a key, if any. -/
def IndexState.lookup {T : Type} (s : IndexState T) (key : Key) : Option (List T) :=
  (s.entries.find? (fun e => e.1 == key)).map (fun e => e.2)

/-- Modelled from the spec: `get(key, buffer)` copies up to the buffer
length many scalars of the vector stored under `key` and returns the count
written together with the scalars written; a missing key yields a
successful zero-element result, never an error. -/
def IndexState.get {T : Type} (s : IndexState T) (key : Key) (bufLen : Nat) :
    Except IndexError (Nat × List T) :=
  match s.lookup key with
  | none => .ok (0, [])
  | some v => .ok (min bufLen v.length, v.take bufLen)

/-- Modelled from the spec: `remove(key)` removes all vectors under the
key and returns the count removed. -/
def IndexState.remove {T : Type} (s : IndexState T) (key : Key) :
    Except IndexError (Nat × IndexState T) :=
  .ok (s.countKey key, { s with entries := s.entries.filter (fun e => e.1 != key) })

/-- Modelled from the spec: `change_metric_kind(kind)` rebinds the
engine's comparison function to a builtin kind; vectors are untouched. -/
def IndexState.change_metric_kind {T : Type} (s : IndexState T) (kind : MetricKind) :
    IndexState T :=
  { s with metric := .builtin kind }

/-- Modelled from the spec: `change_metric(f)` installs a custom-metric
trampoline (identified opaquely) as the active comparison function;
vectors are untouched. -/
def IndexState.change_metric {T : Type} (s : IndexState T) (f : Nat) : IndexState T :=
  { s with metric := .custom f }

/-- `Matches`: parallel sequences of keys and distances returned by a
search, as in the `ffi::Matches` struct consumed by `Matches::result`. -/
structure Matches where
  keys : List Key
  distances : List Int
deriving DecidableEq

/-- Comparison of scored candidates by distance, used to order search
results. -/
def distLe (a b : Key × Int) : Prop :=
  a.2 ≤ b.2

instance : DecidableRel distLe := fun a b => inferInstanceAs (Decidable (a.2 ≤ b.2))

instance : IsTotal (Key × Int) distLe := ⟨fun a b => Int.le_total a.2 b.2⟩

instance : IsTrans (Key × Int) distLe := ⟨fun _ _ _ h1 h2 => le_trans h1 h2⟩

/-- Modelled from the spec: `search(query, count)` scores every stored
vector with the bound metric, orders candidates by non-decreasing
distance, and returns at most `count` of them as parallel key/distance
sequences. The bound metric is passed explicitly as `dist`. -/
def IndexState.search {T : Type} (s : IndexState T) (dist : List T → List T → Int)
    (query : List T) (count : Nat) : Matches :=
  let scored := s.entries.map (fun e => (e.1, dist query e.2))
  let sorted := List.insertionSort distLe scored
  let top := sorted.take count
  { keys := top.map (fun e => e.1), distances := top.map (fun e => e.2) }

/-- The `MetricType` trait of `src/rust/metric.rs`, with its two defaulted
items: `get_kind` (default `MetricKind::Unknown`) and `custom_metric`
(default `None`). A metric type is modelled by the record of its two
items. -/
structure MetricType where
  get_kind : MetricKind := .Unknown
  custom_metric : Option Nat := none
deriving DecidableEq

/-- `define_metric_type!(IP)` from `src/rust/metric.rs`. -/
def IP : MetricType := { get_kind := .IP }

/-- `define_metric_type!(L2sq)` from `src/rust/metric.rs`. -/
def L2sq : MetricType := { get_kind := .L2sq }

/-- `define_metric_type!(Cos)` from `src/rust/metric.rs`. -/
def Cos : MetricType := { get_kind := .Cos }

/-- `define_metric_type!(Pearson)` from `src/rust/metric.rs`. -/
def Pearson : MetricType := { get_kind := .Pearson }

/-- `define_metric_type!(Haversine)` from `src/rust/metric.rs`. -/
def Haversine : MetricType := { get_kind := .Haversine }

/-- `define_metric_type!(Divergence)` from `src/rust/metric.rs`. -/
def Divergence : MetricType := { get_kind := .Divergence }

/-- `define_metric_type!(Hamming)` from `src/rust/metric.rs`. -/
def Hamming : MetricType := { get_kind := .Hamming }

/-- `define_metric_type!(Tanimoto)` from `src/rust/metric.rs`. -/
def Tanimoto : MetricType := { get_kind := .Tanimoto }

/-- `define_metric_type!(Sorensen)` from `src/rust/metric.rs`. -/
def Sorensen : MetricType := { get_kind := .Sorensen }

/-- The typed facade `HighLevel<T, D, M>` of `src/rust/highlevel.rs`: a
phantom-typed wrapper around one engine handle. The metric type parameter
`M` is carried as a field value. -/
structure HighLevel (T : Type) where
  M : MetricType
  index : IndexState T
deriving DecidableEq

/-- `HighLevel::make_index` (`src/rust/highlevel.rs` lines 51-61):
constructs the engine handle from the options, then installs `M`'s
custom-metric trampoline when `M::custom_metric::<T>()` is `Some`. -/
def HighLevel.make_index (T : Type) (M : MetricType) (options : IndexOptions) :
    HighLevel T :=
  let index := Index.new T options
  let index :=
    match M.custom_metric with
    | some custom_metric => index.change_metric custom_metric
    | none => index
  { M := M, index := index }

/-- `HighLevel::new` (`src/rust/highlevel.rs` lines 73-89): builds
`IndexOptions` from the compile-time parameters `D` (dimension), `M`
(metric) and `T` (quantization, here passed as `quant`). -/
def HighLevel.new (T : Type) (quant : ScalarKind) (D : Nat) (M : MetricType)
    (connectivity expansion_add expansion_search : Nat) (multi : Bool) : HighLevel T :=
  HighLevel.make_index T M
    { dimensions := D
      metric := M.get_kind
      quantization := quant
      connectivity := connectivity
      expansion_add := expansion_add
      expansion_search := expansion_search
      multi := multi }

/-- `HighLevel::reserve` delegates to the engine handle. -/
def HighLevel.reserve {T : Type} (h : HighLevel T) (n : Nat) : HighLevel T :=
  { h with index := h.index.reserve n }

/-- `HighLevel::add` delegates to the engine handle. -/
def HighLevel.add {T : Type} (h : HighLevel T) (key : Key) (vector : List T) :
    Except IndexError (HighLevel T) :=
  (h.index.add key vector).map (fun i => { h with index := i })

/-- `HighLevel::get` delegates to the engine handle. -/
def HighLevel.get {T : Type} (h : HighLevel T) (key : Key) (bufLen : Nat) :
    Except IndexError (Nat × List T) :=
  h.index.get key bufLen

/-- `HighLevel::search` delegates to the engine handle. -/
def HighLevel.search {T : Type} (h : HighLevel T) (dist : List T → List T → Int)
    (query : List T) (count : Nat) : Matches :=
  h.index.search dist query count

/-- `HighLevel::remove` delegates to the engine handle. -/
def HighLevel.remove {T : Type} (h : HighLevel T) (key : Key) :
    Except IndexError (Nat × HighLevel T) :=
  (h.index.remove key).map (fun r => (r.1, { h with index := r.2 }))

/-- `HighLevel::contains` delegates to the engine handle. -/
def HighLevel.contains {T : Type} (h : HighLevel T) (key : Key) : Bool :=
  h.index.contains key

/-- `HighLevel::size` delegates to the engine handle. -/
def HighLevel.size {T : Type} (h : HighLevel T) : Nat :=
  h.index.size

/-- `HighLevel::change_metric::<Nm>` (`src/rust/highlevel.rs` lines
172-183), embedded exactly as written: it consumes `self`, rebinds the
engine's metric kind to `Nm::get_kind()`, and then consults
`M::custom_metric::<T>()` — the OLD metric type parameter `M`, not `Nm` —
installing the old metric's custom trampoline when that is `Some`. -/
def HighLevel.change_metric {T : Type} (h : HighLevel T) (Nm : MetricType) :
    HighLevel T :=
  let index := h.index
  let index := index.change_metric_kind Nm.get_kind
  let index :=
    match h.M.custom_metric with
    | some custom_metric => index.change_metric custom_metric
    | none => index
  { M := Nm, index := index }

/-- Modelled from the spec: the behaviour the specification claims for
`change_metric::<NewMetric>` — rebind the engine's metric kind to
NewMetric's kind or install NewMetric's custom-metric trampoline, keeping
the same engine handle and vectors. Stated for comparison with
`HighLevel.change_metric`, which embeds the source. -/
def HighLevel.change_metric_claimed {T : Type} (h : HighLevel T) (Nm : MetricType) :
    HighLevel T :=
  let index := h.index.change_metric_kind Nm.get_kind
  let index :=
    match Nm.custom_metric with
    | some custom_metric => index.change_metric custom_metric
    | none => index
  { M := Nm, index := index }

/-- Sequential model of the `try_for_each` insertion loop of
`HighLevel::batch_insert` (`src/rust/batch_insert.rs` lines 17-19):
attempts each `(key, value)` in order via `Index::add`, stopping at the
first error; insertions already applied are kept. -/
def batchInsertLoop {T : Type} :
    List (Key × List T) → HighLevel T → HighLevel T × Option IndexError
  | [], h => (h, none)
  | (key, value) :: rest, h =>
    match h.index.add key value with
    | .ok i => batchInsertLoop rest { h with index := i }
    | .error e => (h, some e)

/-- `HighLevel::batch_insert` (`src/rust/batch_insert.rs` lines 14-21):
reserves capacity for the batch length once, then runs the insertion
loop. -/
def HighLevel.batch_insert {T : Type} (h : HighLevel T) (batch : List (Key × List T)) :
    HighLevel T × Option IndexError :=
  let len := batch.length
  let h := h.reserve len
  batchInsertLoop batch h

/-- The half-precision type `f16` of the `half` crate, seen through the
facade layer purely as a 16-bit pattern (1 sign, 5 exponent, 10 mantissa
bits); the layer never computes with the value, so only the bit pattern
(the underlying `i16`, modelled as `Int`) is represented. -/
structure f16 where
  bits : Int
deriving DecidableEq

/-- The brain-float type `bf16` of the `half` crate, likewise represented
by its 16-bit pattern. -/
structure bf16 where
  bits : Int
deriving DecidableEq

/-- `F16HalfUSearchExt::from_i16s` (`src/rust/f16_precision.rs` lines
54-57): `bytemuck::cast_slice` from `&[i16]` to `&[f16]`, a pure bit
reinterpretation of each element. -/
def f16.from_i16s (slice : List Int) : List f16 :=
  slice.map f16.mk

/-- `F16HalfUSearchExt::to_i16s` (`src/rust/f16_precision.rs` lines
66-68): `bytemuck::cast_slice` from `&[f16]` to `&[i16]`. -/
def f16.to_i16s (slice : List f16) : List Int :=
  slice.map f16.bits

/-- `Bf16HalfUSearchExt::from_i16s` (`src/rust/f16_precision.rs` lines
25-28): `bytemuck::cast_slice` from `&[i16]` to `&[bf16]`. -/
def bf16.from_i16s (slice : List Int) : List bf16 :=
  slice.map bf16.mk

/-- `Bf16HalfUSearchExt::to_i16s` (`src/rust/f16_precision.rs` lines
37-39): `bytemuck::cast_slice` from `&[bf16]` to `&[i16]`. -/
def bf16.to_i16s (slice : List bf16) : List Int :=
  slice.map bf16.bits

/-- The engine entry points reached by the half-precision `VectorType`
implementations, with the data they are handed across the foreign-call
boundary. -/
inductive EngineCall where
  | search_f16 : List Int → Nat → EngineCall
  | get_f16 : Key → List Int → EngineCall
  | add_f16 : Key → List Int → EngineCall
deriving DecidableEq

/-- One facade call observed at the foreign-call boundary: the lines it
printed to standard output and the engine entry point it invoked. -/
structure EngineInvocation where
  stdout : List String
  call : EngineCall
deriving DecidableEq

/-- `<f16 as VectorType>::search` (`src/rust/f16_precision.rs` lines
154-156): calls `search_f16` with the query bit-cast via `to_i16s`. -/
def f16.search_impl (query : List f16) (count : Nat) : EngineInvocation :=
  { stdout := [], call := .search_f16 (f16.to_i16s query) count }

/-- `<f16 as VectorType>::get` (`src/rust/f16_precision.rs` lines
157-159): calls `get_f16` with the buffer bit-cast via `to_mut_i16s`. -/
def f16.get_impl (key : Key) (buffer : List f16) : EngineInvocation :=
  { stdout := [], call := .get_f16 key (f16.to_i16s buffer) }

/-- `<f16 as VectorType>::add` (`src/rust/f16_precision.rs` lines
160-162): calls `add_f16` with the vector bit-cast via `to_i16s`. -/
def f16.add_impl (key : Key) (vector : List f16) : EngineInvocation :=
  { stdout := [], call := .add_f16 key (f16.to_i16s vector) }

/-- `<f16 as VectorType>::quant_type` (`src/rust/f16_precision.rs` lines
223-225). -/
def f16.quant_type : ScalarKind :=
  .F16

/-- `<bf16 as VectorType>::search` (`src/rust/f16_precision.rs` lines
79-81): calls the f16 entry point `search_f16` with the bf16 query
bit-cast via `bf16::to_i16s`. -/
def bf16.search_impl (query : List bf16) (count : Nat) : EngineInvocation :=
  { stdout := [], call := .search_f16 (bf16.to_i16s query) count }

/-- `<bf16 as VectorType>::get` (`src/rust/f16_precision.rs` lines
82-85): prints the diagnostic line, then calls the f16 entry point
`get_f16` with the buffer bit-cast via `bf16::to_mut_i16s`. -/
def bf16.get_impl (key : Key) (buffer : List bf16) : EngineInvocation :=
  { stdout := ["Not implemented for BF16 yet"]
    call := .get_f16 key (bf16.to_i16s buffer) }

/-- `<bf16 as VectorType>::add` (`src/rust/f16_precision.rs` lines
86-88): calls the f16 entry point `add_f16` with the vector bit-cast via
`bf16::to_i16s`. -/
def bf16.add_impl (key : Key) (vector : List bf16) : EngineInvocation :=
  { stdout := [], call := .add_f16 key (bf16.to_i16s vector) }

/-- `<bf16 as VectorType>::quant_type` (`src/rust/f16_precision.rs` lines
149-151). -/
def bf16.quant_type : ScalarKind :=
  .BF16

/-- A small populated facade over `Int` scalars with `multi` disabled,
used to evaluate the theorems on explicit inputs. -/
def sampleFacade : HighLevel Int :=
  { M := Cos
    index :=
      { options :=
          { dimensions := 2, metric := .Cos, quantization := .F32,
            connectivity := 16, expansion_add := 128, expansion_search := 64,
            multi := false }
        entries := [(5, [1, 2]), (9, [3, 4])]
        capacity := 8
        metric := .builtin .Cos } }

/-- A metric type carrying a custom distance closure (opaque id 7), as a
user of the `MetricType` trait would define one. -/
def customMetricExample : MetricType :=
  { get_kind := .Unknown, custom_metric := some 7 }

/-- A populated facade bound to `customMetricExample`, used to evaluate
`change_metric` on an explicit input. -/
def customFacade : HighLevel Int :=
  { M := customMetricExample
    index :=
      { options :=
          { dimensions := 2, metric := .Unknown, quantization := .F32,
            connectivity := 16, expansion_add := 128, expansion_search := 64,
            multi := false }
        entries := [(1, [2, 3]), (4, [5, 6])]
        capacity := 4
        metric := .custom 7 } }

/-- An empty facade over `Int` scalars with dimension 1 and `multi`
disabled, used to evaluate the batch-insertion theorems. -/
def emptyFacade : HighLevel Int :=
  { M := L2sq
    index :=
      { options :=
          { dimensions := 1, metric := .L2sq, quantization := .F32,
            connectivity := 16, expansion_add := 128, expansion_search := 64,
            multi := false }
        entries := []
        capacity := 0
        metric := .builtin .L2sq } }

/-- The facade state reached when batch insertion into `emptyFacade`
stops at a pair of the wrong dimension: the first pair is applied, the
capacity reservation for the batch of three is kept. -/
def failedFacade : HighLevel Int :=
  { M := L2sq
    index :=
      { options :=
          { dimensions := 1, metric := .L2sq, quantization := .F32,
            connectivity := 16, expansion_add := 128, expansion_search := 64,
            multi := false }
        entries := [(1, [5])]
        capacity := 3
        metric := .builtin .L2sq } }

lemma add_ok_eq {T : Type} {s s2 : IndexState T} {key : Key} {vector : List T}
    (h : s.add key vector = .ok s2) :
    s2 = { s with entries := s.entries ++ [(key, vector)] } := by
  unfold IndexState.add at h
  split at h
  · exact absurd h (by simp)
  · split at h
    · exact absurd h (by simp)
    · simpa using h.symm

lemma add_ok_length {T : Type} {s s2 : IndexState T} {key : Key} {vector : List T}
    (h : s.add key vector = .ok s2) :
    vector.length = s.options.dimensions := by
  unfold IndexState.add at h
  split at h
  · exact absurd h (by simp)
  · omega

lemma add_ok_not_contains {T : Type} {s s2 : IndexState T} {key : Key} {vector : List T}
    (hm : s.options.multi = false) (h : s.add key vector = .ok s2) :
    s.contains key = false := by
  unfold IndexState.add at h
  split at h
  · exact absurd h (by simp)
  · split at h
    · exact absurd h (by simp)
    · rename_i hcond
      simp [hm] at hcond
      exact hcond

lemma lookup_eq_none_of_contains_false {T : Type} {s : IndexState T} {key : Key}
    (h : s.contains key = false) : s.lookup key = none := by
  unfold IndexState.contains at h
  unfold IndexState.lookup
  rw [List.find?_eq_none.mpr]
  · rfl
  · intro e he
    simp only [List.any_eq_false] at h
    exact h e he

lemma not_mem_keys_of_contains_false {T : Type} {s : IndexState T} {key : Key}
    (h : s.contains key = false) : key ∉ s.entries.map (fun e => e.1) := by
  unfold IndexState.contains at h
  simp only [List.any_eq_false] at h
  intro hmem
  rcases List.mem_map.mp hmem with ⟨e, hemem, hek⟩
  exact h e hemem (by simp [hek])

lemma batchInsertLoop_ok {T : Type} :
    ∀ (batch : List (Key × List T)) (g h2 : HighLevel T),
      batchInsertLoop batch g = (h2, none) →
      h2.M = g.M ∧ h2.index.options = g.index.options ∧
      h2.index.capacity = g.index.capacity ∧
      h2.index.entries = g.index.entries ++ batch := by
  intro batch
  induction batch with
  | nil =>
    intro g h2 hres
    simp [batchInsertLoop] at hres
    simp [← hres]
  | cons p rest ih =>
    intro g h2 hres
    obtain ⟨key, value⟩ := p
    unfold batchInsertLoop at hres
    split at hres
    · rename_i i hadd
      have he := add_ok_eq hadd
      have := ih { g with index := i } h2 hres
      subst he
      simpa using this
    · exact absurd (congrArg Prod.snd hres) (by simp)

lemma batchInsertLoop_capacity {T : Type} :
    ∀ (batch : List (Key × List T)) (g : HighLevel T),
      (batchInsertLoop batch g).1.index.capacity = g.index.capacity := by
  intro batch
  induction batch with
  | nil => intro g; rfl
  | cons p rest ih =>
    intro g
    obtain ⟨key, value⟩ := p
    unfold batchInsertLoop
    split
    · rename_i i hadd
      have he := add_ok_eq hadd
      subst he
      simpa using ih _
    · rfl

lemma batchInsertLoop_error {T : Type} :
    ∀ (batch : List (Key × List T)) (g h2 : HighLevel T) (e : IndexError),
      batchInsertLoop batch g = (h2, some e) →
      ∃ pre p post, batch = pre ++ p :: post ∧
        batchInsertLoop pre g = (h2, none) ∧
        h2.index.add p.1 p.2 = .error e := by
  intro batch
  induction batch with
  | nil =>
    intro g h2 e hres
    exact absurd (congrArg Prod.snd hres) (by simp [batchInsertLoop])
  | cons p rest ih =>
    intro g h2 e hres
    obtain ⟨key, value⟩ := p
    unfold batchInsertLoop at hres
    split at hres
    · rename_i i hadd
      rcases ih { g with index := i } h2 e hres with ⟨pre, q, post, hb, hloop, herr⟩
      refine ⟨(key, value) :: pre, q, post, by rw [hb]; rfl, ?_, herr⟩
      unfold batchInsertLoop
      rw [hadd]
      exact hloop
    · rename_i herr
      rw [Prod.mk.injEq] at hres
      obtain ⟨h1, h2e⟩ := hres
      refine ⟨[], (key, value), rest, rfl, by simp [batchInsertLoop, h1], ?_⟩
      rw [← h1, herr, Option.some.inj h2e]

lemma f16_to_from (s : List Int) : f16.to_i16s (f16.from_i16s s) = s := by
  induction s with
  | nil => rfl
  | cons a t ih => simpa [f16.from_i16s, f16.to_i16s] using ih

lemma bf16_to_from (s : List Int) : bf16.to_i16s (bf16.from_i16s s) = s := by
  induction s with
  | nil => rfl
  | cons a t ih => simpa [bf16.from_i16s, bf16.to_i16s] using ih

/-- Claim C1, evaluated at an explicit input: on a populated facade whose
old metric `M` carries a custom trampoline (id 7), `change_metric` to the
builtin `Cos` leaves the OLD metric's trampoline installed, because the
source consults `M::custom_metric` rather than `Nm::custom_metric`; the
result therefore differs from the claimed behaviour (`change_metric_claimed`,
which installs NewMetric's trampoline — none for `Cos`). The engine
handle's entries are retained unchanged and the kind is rebound. -/
theorem change_metric_installs_old_trampoline :
    (customFacade.change_metric Cos).index.metric = ActiveMetric.custom 7 ∧
    (customFacade.change_metric_claimed Cos).index.metric = ActiveMetric.builtin MetricKind.Cos ∧
    (customFacade.change_metric Cos).index ≠ (customFacade.change_metric_claimed Cos).index ∧
    (customFacade.change_metric Cos).index.entries = customFacade.index.entries :=
  ⟨rfl, rfl, by decide, rfl⟩

/-- Claim C3: `add(key, vector)` succeeds only if the vector length equals
the configured compile-time dimension, and it fails (with the duplicate-key
error, or the dimension error when the length is also wrong) on a key
already contained when `multi` is disabled. -/
theorem add_requires_dimension_and_rejects_duplicates {T : Type}
    (h : HighLevel T) (key : Key) (vector : List T) :
    (∀ h2, h.add key vector = .ok h2 → vector.length = h.index.options.dimensions) ∧
    (h.index.contains key = true → h.index.options.multi = false →
      ∃ e, h.add key vector = .error e) := by
  constructor
  · intro h2 hok
    unfold HighLevel.add at hok
    cases hadd : h.index.add key vector with
    | ok i => exact add_ok_length hadd
    | error e => rw [hadd] at hok; exact absurd hok (by simp [Except.map])
  · intro hc hm
    unfold HighLevel.add IndexState.add
    by_cases hl : vector.length = h.index.options.dimensions
    · refine ⟨.duplicateKey, ?_⟩
      simp [hl, hc, hm, Except.map]
    · refine ⟨.dimensionMismatch, ?_⟩
      simp [hl, Except.map]

/-- Witness for C3 at explicit inputs: adding key 5 (already contained)
to `sampleFacade` (`multi` disabled) yields an error, and the length
condition is discharged on a successful add of key 7. -/
theorem add_requires_dimension_witness :
    (∃ e, sampleFacade.add 5 [(7 : Int), 8] = .error e) ∧
    (∀ h2, sampleFacade.add 7 [(7 : Int), 8] = .ok h2 →
      ([(7 : Int), 8]).length = sampleFacade.index.options.dimensions) :=
  ⟨(add_requires_dimension_and_rejects_duplicates sampleFacade 5 [7, 8]).2
      (by decide) (by decide),
   (add_requires_dimension_and_rejects_duplicates sampleFacade 7 [7, 8]).1⟩

/-- Claim C5: `get(key, buffer)` on a key not contained returns `Ok` with
zero scalars written — absence is not an error path — and on a present key
it copies up to the buffer length many scalars and returns the count
written. -/
theorem get_missing_key_is_ok_zero {T : Type} (h : HighLevel T) (key : Key)
    (bufLen : Nat) :
    (h.index.contains key = false → h.get key bufLen = .ok (0, [])) ∧
    (∀ v, h.index.lookup key = some v →
      h.get key bufLen = .ok (min bufLen v.length, v.take bufLen)) := by
  constructor
  · intro hc
    unfold HighLevel.get IndexState.get
    rw [lookup_eq_none_of_contains_false hc]
  · intro v hv
    unfold HighLevel.get IndexState.get
    rw [hv]

/-- Witness for C5 at explicit inputs: on `sampleFacade`, `get` of the
absent key 7 writes zero scalars, and `get` of the present key 5 with a
buffer of length 1 writes one scalar. -/
theorem get_missing_key_witness :
    sampleFacade.get 7 2 = .ok (0, []) ∧
    sampleFacade.get 5 1 = .ok (min 1 ([(1 : Int), 2]).length, ([(1 : Int), 2]).take 1) :=
  ⟨(get_missing_key_is_ok_zero sampleFacade 7 2).1 (by decide),
   (get_missing_key_is_ok_zero sampleFacade 5 1).2 [1, 2] (by decide)⟩

/-- Claim C6: the half-precision conversions are pure bit
reinterpretations, for both the `f16` and the `bf16` variant:
`from_i16s` preserves the length, element `i` of the result carries
exactly the bit pattern of element `i` of the input, and `to_i16s`
inverts the conversion elementwise — no value conversion in either
direction. -/
theorem half_precision_pure_bit_reinterpretation :
    (∀ (s : List Int),
      (f16.from_i16s s).length = s.length ∧
      (∀ i : Nat, ((f16.from_i16s s)[i]?).map f16.bits = s[i]?) ∧
      f16.to_i16s (f16.from_i16s s) = s) ∧
    (∀ (s : List Int),
      (bf16.from_i16s s).length = s.length ∧
      (∀ i : Nat, ((bf16.from_i16s s)[i]?).map bf16.bits = s[i]?) ∧
      bf16.to_i16s (bf16.from_i16s s) = s) := by
  constructor
  · intro s
    refine ⟨by simp [f16.from_i16s], ?_, f16_to_from s⟩
    intro i
    cases h : s[i]? with
    | none => simp [f16.from_i16s, List.getElem?_map, h]
    | some x => simp [f16.from_i16s, List.getElem?_map, h]
  · intro s
    refine ⟨by simp [bf16.from_i16s], ?_, bf16_to_from s⟩
    intro i
    cases h : s[i]? with
    | none => simp [bf16.from_i16s, List.getElem?_map, h]
    | some x => simp [bf16.from_i16s, List.getElem?_map, h]

/-- Claim C9: each builtin metric type reports its corresponding
`MetricKind` from `get_kind` and has no custom metric; consequently
construction via `make_index` (hence `new`/`try_default`) with a metric
whose `custom_metric` is `None` installs no custom-metric trampoline on
the engine handle. -/
theorem builtin_metrics_no_custom_trampoline :
    (IP.get_kind = MetricKind.IP ∧ IP.custom_metric = none ∧
     L2sq.get_kind = MetricKind.L2sq ∧ L2sq.custom_metric = none ∧
     Cos.get_kind = MetricKind.Cos ∧ Cos.custom_metric = none ∧
     Pearson.get_kind = MetricKind.Pearson ∧ Pearson.custom_metric = none ∧
     Haversine.get_kind = MetricKind.Haversine ∧ Haversine.custom_metric = none ∧
     Divergence.get_kind = MetricKind.Divergence ∧ Divergence.custom_metric = none ∧
     Hamming.get_kind = MetricKind.Hamming ∧ Hamming.custom_metric = none ∧
     Tanimoto.get_kind = MetricKind.Tanimoto ∧ Tanimoto.custom_metric = none ∧
     Sorensen.get_kind = MetricKind.Sorensen ∧ Sorensen.custom_metric = none) ∧
    (∀ (T : Type) (M : MetricType) (opts : IndexOptions), M.custom_metric = none →
      (HighLevel.make_index T M opts).index.metric = ActiveMetric.builtin opts.metric) := by
  refine ⟨by decide, ?_⟩
  intro T M opts hM
  unfold HighLevel.make_index
  rw [hM]
  rfl

/-- Witness for C9 at an explicit input: constructing an `IP`-metric
facade installs no custom-metric trampoline. -/
theorem builtin_metrics_witness :
    (HighLevel.make_index Int IP
      { dimensions := 2, metric := MetricKind.IP, quantization := .F32,
        connectivity := 16, expansion_add := 128, expansion_search := 64,
        multi := false }).index.metric = ActiveMetric.builtin MetricKind.IP :=
  builtin_metrics_no_custom_trampoline.2 Int IP
    { dimensions := 2, metric := MetricKind.IP, quantization := .F32,
      connectivity := 16, expansion_add := 128, expansion_search := 64,
      multi := false } (by decide)

/-- Claim C10: the bf16 scalar implementations delegate to the engine's
f16 entry points with the bf16 data bit-cast to 16-bit patterns — each
bf16 call equals the f16 call on the bit-identical f16 slice — even
though `quant_type` reports `BF16`; and every bf16 `get` prints the
"Not implemented for BF16 yet" diagnostic before delegating, while the
f16 `get` prints nothing. -/
theorem bf16_delegates_to_f16_entry_points :
    (∀ (query : List bf16) (count : Nat),
      bf16.search_impl query count =
        f16.search_impl (f16.from_i16s (bf16.to_i16s query)) count) ∧
    (∀ (key : Key) (buffer : List bf16),
      (bf16.get_impl key buffer).call =
        (f16.get_impl key (f16.from_i16s (bf16.to_i16s buffer))).call ∧
      (bf16.get_impl key buffer).stdout = ["Not implemented for BF16 yet"] ∧
      (f16.get_impl key (f16.from_i16s (bf16.to_i16s buffer))).stdout = []) ∧
    (∀ (key : Key) (vector : List bf16),
      bf16.add_impl key vector =
        f16.add_impl key (f16.from_i16s (bf16.to_i16s vector))) ∧
    bf16.quant_type = ScalarKind.BF16 := by
  refine ⟨?_, ?_, ?_, rfl⟩
  · intro query count
    simp [bf16.search_impl, f16.search_impl, f16_to_from]
  · intro key buffer
    refine ⟨?_, rfl, rfl⟩
    simp [bf16.get_impl, f16.get_impl, f16_to_from]
  · intro key vector
    simp [bf16.add_impl, f16.add_impl, f16_to_from]

/-- Claim C2: `batch_insert(batch)` reserves capacity for the full batch
exactly once before any insertion (`reserve` takes the desired total
capacity, including the current size), so the resulting capacity covers
the batch; and for a batch of pairs with unique keys inserted into an
empty index, a successful call yields `size() = N` with every batch key
contained afterward. -/
theorem batch_insert_reserves_once_then_inserts {T : Type} (h : HighLevel T)
    (batch : List (Key × List T))
    (_hkeys : (batch.map (fun p => p.1)).Nodup)
    (hempty : h.index.entries = []) :
    h.batch_insert batch = batchInsertLoop batch (h.reserve batch.length) ∧
    batch.length ≤ (h.batch_insert batch).1.index.capacity ∧
    (∀ h2, h.batch_insert batch = (h2, none) →
      h2.size = batch.length ∧ ∀ p ∈ batch, h2.contains p.1 = true) := by
  refine ⟨rfl, ?_, ?_⟩
  · show batch.length ≤ (batchInsertLoop batch (h.reserve batch.length)).1.index.capacity
    rw [batchInsertLoop_capacity]
    show batch.length ≤ max h.index.capacity batch.length
    exact le_max_right _ _
  · intro h2 hres
    obtain ⟨_, _, _, hent⟩ := batchInsertLoop_ok batch (h.reserve batch.length) h2 hres
    have hent2 : h2.index.entries = batch := by
      rw [hent]
      show h.index.entries ++ batch = batch
      rw [hempty]
      rfl
    constructor
    · show h2.index.entries.length = batch.length
      rw [hent2]
    · intro p hp
      show h2.index.entries.any (fun e => e.1 == p.1) = true
      rw [hent2]
      exact List.any_eq_true.mpr ⟨p, hp, by simp⟩

/-- Witness for C2 at an explicit input: a two-pair batch with unique
keys into the empty facade succeeds with size 2, both keys contained, and
a capacity covering the batch. -/
theorem batch_insert_reserves_witness :
    (emptyFacade.batch_insert [(1, [5]), (2, [6])]).1.size = 2 ∧
    (emptyFacade.batch_insert [(1, [5]), (2, [6])]).1.contains 1 = true ∧
    2 ≤ (emptyFacade.batch_insert [(1, [5]), (2, [6])]).1.index.capacity := by
  have h := batch_insert_reserves_once_then_inserts emptyFacade
    [(1, [5]), (2, [6])] (by decide) (by decide)
  have hsucc := h.2.2 (emptyFacade.batch_insert [(1, [5]), (2, [6])]).1 (by decide)
  exact ⟨hsucc.1, hsucc.2 (1, [5]) (by decide), h.2.1⟩

/-- Claim C4: a `search(query, count)` returns parallel keys and
distances sequences of equal length with at most `count` entries, ordered
by non-decreasing distance; and with `multi` disabled duplicate keys
cannot arise — `add` preserves key uniqueness, and then the search result
carries no duplicate key. -/
theorem search_returns_wellformed_matches {T : Type} (h : HighLevel T)
    (dist : List T → List T → Int) (query : List T) (count : Nat)
    (hm : h.index.options.multi = false)
    (hnd : (h.index.entries.map (fun e => e.1)).Nodup) :
    (h.search dist query count).keys.length =
      (h.search dist query count).distances.length ∧
    (h.search dist query count).keys.length ≤ count ∧
    List.Sorted (fun a b => a ≤ b) (h.search dist query count).distances ∧
    (h.search dist query count).keys.Nodup ∧
    (∀ key vector s2, h.index.add key vector = .ok s2 →
      (s2.entries.map (fun e => e.1)).Nodup) := by
  refine ⟨?_, ?_, ?_, ?_, ?_⟩
  · simp [HighLevel.search, IndexState.search]
  · simp only [HighLevel.search, IndexState.search, List.length_map, List.length_take]
    exact min_le_left _ _
  · have hs := List.sorted_insertionSort distLe
      (h.index.entries.map (fun e => (e.1, dist query e.2)))
    have ht := List.Pairwise.sublist (List.take_sublist count _) hs
    show List.Sorted (fun a b => a ≤ b)
      (((List.insertionSort distLe
          (h.index.entries.map (fun e => (e.1, dist query e.2)))).take count).map
        (fun e => e.2))
    exact List.pairwise_map.mpr (ht.imp (fun hab => hab))
  · have hperm := List.perm_insertionSort distLe
      (h.index.entries.map (fun e => (e.1, dist query e.2)))
    have hkeysperm := hperm.map (fun e : Key × Int => e.1)
    have hnd2 : ((h.index.entries.map (fun e => (e.1, dist query e.2))).map
        (fun e => e.1)).Nodup := by
      rw [List.map_map]
      exact hnd
    have hnds := hkeysperm.nodup_iff.mpr hnd2
    have hsub := List.Sublist.map (fun e : Key × Int => e.1)
      (List.take_sublist count
        (List.insertionSort distLe
          (h.index.entries.map (fun e : Key × List T => (e.1, dist query e.2)))))
    show (((List.insertionSort distLe
        (h.index.entries.map (fun e => (e.1, dist query e.2)))).take count).map
      (fun e => e.1)).Nodup
    exact hnds.sublist hsub
  · intro key vector s2 hadd
    have hc := add_ok_not_contains hm hadd
    have he := add_ok_eq hadd
    subst he
    show ((h.index.entries ++ [(key, vector)]).map (fun e => e.1)).Nodup
    rw [List.map_append]
    refine List.Nodup.append hnd (List.nodup_singleton _) ?_
    intro x hx hx2
    rw [List.map_singleton, List.mem_singleton] at hx2
    subst hx2
    exact not_mem_keys_of_contains_false hc hx

/-- Witness for C4 at an explicit input: searching `sampleFacade` (two
entries, `multi` disabled) with a concrete distance function, query and
count 2 yields equal-length, bounded, sorted, duplicate-free matches. -/
theorem search_returns_wellformed_witness :
    (sampleFacade.search (fun _ v => v.headD 0) [1, 2] 2).keys.length =
      (sampleFacade.search (fun _ v => v.headD 0) [1, 2] 2).distances.length ∧
    (sampleFacade.search (fun _ v => v.headD 0) [1, 2] 2).keys.length ≤ 2 ∧
    List.Sorted (fun a b => a ≤ b)
      (sampleFacade.search (fun _ v => v.headD 0) [1, 2] 2).distances ∧
    (sampleFacade.search (fun _ v => v.headD 0) [1, 2] 2).keys.Nodup :=
  have h := search_returns_wellformed_matches sampleFacade
    (fun _ v => v.headD 0) [1, 2] 2 (by decide) (by decide)
  ⟨h.1, h.2.1, h.2.2.1, h.2.2.2.1⟩

/-- Claim C7: when an insertion inside `batch_insert` fails, the call
returns the error of the first failing pair and only that error; the
insertions dispatched before it are not rolled back — they remain in the
index — so the index may be left in a partly applied state. -/
theorem batch_insert_fail_fast_no_rollback {T : Type} (h : HighLevel T)
    (batch : List (Key × List T)) (h2 : HighLevel T) (e : IndexError)
    (hres : h.batch_insert batch = (h2, some e)) :
    ∃ pre p post, batch = pre ++ p :: post ∧
      batchInsertLoop pre (h.reserve batch.length) = (h2, none) ∧
      h2.index.add p.1 p.2 = .error e ∧
      h2.index.entries = h.index.entries ++ pre := by
  have hres2 : batchInsertLoop batch (h.reserve batch.length) = (h2, some e) := hres
  rcases batchInsertLoop_error batch _ h2 e hres2 with ⟨pre, p, post, hb, hloop, herr⟩
  refine ⟨pre, p, post, hb, hloop, herr, ?_⟩
  exact (batchInsertLoop_ok pre _ h2 hloop).2.2.2

/-- Witness for C7 at an explicit input: a three-pair batch into the
empty one-dimensional facade whose second pair has length two stops at
that pair with the dimension error, keeping the first insertion. -/
theorem batch_insert_fail_fast_witness :
    ∃ pre p post,
      ([((1 : Key), [(5 : Int)]), (2, [7, 8]), (3, [9])] : List (Key × List Int)) =
        pre ++ p :: post ∧
      batchInsertLoop pre
          (emptyFacade.reserve
            ([((1 : Key), [(5 : Int)]), (2, [7, 8]), (3, [9])] : List (Key × List Int)).length) =
        (failedFacade, none) ∧
      failedFacade.index.add p.1 p.2 = .error IndexError.dimensionMismatch ∧
      failedFacade.index.entries = emptyFacade.index.entries ++ pre :=
  batch_insert_fail_fast_no_rollback emptyFacade
    [(1, [5]), (2, [7, 8]), (3, [9])] failedFacade .dimensionMismatch (by decide)

/-- Claim C8: after a successful `remove(key)` of a key present in the
index, a subsequent `get(key, buffer)` returns `Ok` with zero scalars
written and `contains(key)` is false. -/
theorem remove_then_get_zero_and_not_contains {T : Type} (h : HighLevel T)
    (key : Key) (bufLen : Nat) (hc : h.contains key = true) :
    ∃ cnt h2, h.remove key = .ok (cnt, h2) ∧ 0 < cnt ∧
      h2.contains key = false ∧ h2.get key bufLen = .ok (0, []) := by
  have hcf : (({ h with index :=
      { h.index with entries := h.index.entries.filter (fun e => e.1 != key) } } :
        HighLevel T)).index.contains key = false := by
    show (h.index.entries.filter (fun e => e.1 != key)).any (fun e => e.1 == key) = false
    rw [List.any_eq_false]
    intro e he
    have h2 := (List.mem_filter.mp he).2
    simpa using h2
  have hcnt : 0 < h.index.countKey key := by
    unfold HighLevel.contains IndexState.contains at hc
    rcases List.any_eq_true.mp hc with ⟨e, he, hek⟩
    unfold IndexState.countKey
    exact List.length_pos.mpr
      (List.ne_nil_of_mem (List.mem_filter.mpr ⟨he, hek⟩))
  refine ⟨h.index.countKey key,
    { h with index :=
        { h.index with entries := h.index.entries.filter (fun e => e.1 != key) } },
    rfl, hcnt, hcf, ?_⟩
  show IndexState.get _ key bufLen = .ok (0, [])
  unfold IndexState.get
  rw [lookup_eq_none_of_contains_false hcf]

/-- Witness for C8 at an explicit input: removing the present key 5 from
`sampleFacade` removes one vector, after which `contains 5` is false and
`get 5` writes zero scalars. -/
theorem remove_then_get_zero_witness :
    ∃ cnt h2, sampleFacade.remove 5 = .ok (cnt, h2) ∧ 0 < cnt ∧
      h2.contains 5 = false ∧ h2.get 5 2 = .ok (0, []) :=
  remove_then_get_zero_and_not_contains sampleFacade 5 2 (by decide)

end USearch
